import Mathlib

/-!
Shallow embedding of `src/download_minecraft_items.py` (a MediaWiki item-image
scraper) and verification of the specification's claims about it.

Strings are modelled as `List Char`.  Remote HTTP responses are modelled as
oracles of type `Except Unit R`: `.error ()` stands for any exception raised
while performing the request or parsing its JSON body (the Python code catches
all of these with a bare `except Exception`), and `.ok r` for a successfully
parsed response of shape `R`.  File writes are modelled atomically: a write
either succeeds, replacing the file's content, or raises (caught by the code),
leaving the previous content.
-/

namespace DMI

abbrev Str := List Char

/-! ### sanitize_filename (source lines 33-38)

`invalid_chars = '<>:"/\\|?*'`; the Python loops `filename.replace(char, '_')`
over those nine characters and finally truncates with `filename[:255]`.
`str.replace` of a single character is a character-wise map. -/

def invalid_chars : List Char := ['<', '>', ':', '"', '/', '\\', '|', '?', '*']

/-- One step of `filename.replace(char, '_')`, acting on a single character. -/
def replace_char (c : Char) (x : Char) : Char := if x = c then '_' else x

/-- `filename.replace(c, '_')` for a one-character pattern `c`. -/
def replace_all (c : Char) (s : Str) : Str := s.map (replace_char c)

/-- `sanitize_filename` from the source: replace each invalid character by an
underscore, then truncate to 255 characters. -/
def sanitize_filename (s : Str) : Str :=
  (invalid_chars.foldl (fun acc c => replace_all c acc) s).take 255

/-- The per-character effect of the whole replacement loop. -/
def san_char (x : Char) : Char :=
  invalid_chars.foldl (fun a c => replace_char c a) x

/-! ### The resolver's first step: get_item_image (source lines 77-100)

The code iterates the `pages` dict of the response; for each page having an
`images` key it iterates the images and returns the first `image['title']`
such that `'png' in image['title'].lower() or 'gif' in image['title'].lower()`.
Python's `in` on strings is substring containment. -/

/-- `s.lower()` on the characters of a string. -/
def lower_str (s : Str) : Str := s.map Char.toLower

/-- Does the string start with the given needle? -/
def leads_with : Str → Str → Bool
  | [], _ => true
  | _ :: _, [] => false
  | a :: as, b :: bs => a = b && leads_with as bs

/-- Python's `needle in haystack` substring test. -/
def has_sub (needle : Str) : Str → Bool
  | [] => needle.isEmpty
  | c :: t => leads_with needle (c :: t) || has_sub needle t

/-- The source's image filter: `'png' in title.lower() or 'gif' in title.lower()`. -/
def title_matches (t : Str) : Bool :=
  has_sub "png".toList (lower_str t) || has_sub "gif".toList (lower_str t)

structure Image where
  title : Str
deriving DecidableEq, Repr

/-- One page object of the `prop=images` response; `images = none` models a
page dict without the `images` key. -/
structure Page where
  images : Option (List Image)
deriving DecidableEq, Repr

/-- The inner `for image in page['images']` loop with its early return. -/
def find_match : List Image → Option Str
  | [] => none
  | im :: rest => if title_matches im.title then some im.title else find_match rest

/-- The outer `for page_id in pages` loop. -/
def scan_pages : List Page → Option Str
  | [] => none
  | p :: rest =>
    match p.images with
    | some imgs =>
      match find_match imgs with
      | some t => some t
      | none => scan_pages rest
    | none => scan_pages rest

/-- `get_item_image`: on any request/parse exception the code logs and falls
through to `return None`. -/
def get_item_image (resp : Except Unit (List Page)) : Option Str :=
  match resp with
  | .error _ => none
  | .ok pages => scan_pages pages

/-- Modelled from the spec's words, for comparison with `get_item_image`:
"select the first image whose filename extension (case-insensitive) is
`.png` or `.gif`".  The extension test is a case-insensitive suffix test. -/
def ends_with (needle s : Str) : Bool := leads_with needle.reverse s.reverse

/-- Spec-side predicate: the title's extension, lowercased, is `.png` or `.gif`. -/
def has_png_gif_ext (t : Str) : Bool :=
  ends_with ".png".toList (lower_str t) || ends_with ".gif".toList (lower_str t)

/-- The selection `get_item_image` actually performs, phrased independently:
flatten the images of the pages that have an `images` key, in page order, and
take the first whose title passes the substring test. -/
def resolver_select (pages : List Page) : Option Str :=
  (((pages.filterMap Page.images).flatten).find? (fun im => title_matches im.title)).map
    Image.title

/-! ### Lemmas for sanitize_filename -/

theorem replace_all_cons (c x : Char) (t : Str) :
    replace_all c (x :: t) = replace_char c x :: replace_all c t := rfl

/-- The replacement fold over a cons cell acts pointwise. -/
theorem foldl_replace_cons (cs : List Char) (x : Char) (t : Str) :
    cs.foldl (fun acc c => replace_all c acc) (x :: t) =
      cs.foldl (fun a c => replace_char c a) x ::
        cs.foldl (fun acc c => replace_all c acc) t := by
  induction cs generalizing x t with
  | nil => rfl
  | cons c cs ih => simpa [replace_all_cons] using ih (replace_char c x) (replace_all c t)

/-- The replacement fold is a map of `san_char`. -/
theorem foldl_replace_eq_map (s : Str) :
    invalid_chars.foldl (fun acc c => replace_all c acc) s = s.map san_char := by
  induction s with
  | nil => rfl
  | cons x t ih => rw [foldl_replace_cons, ih]; rfl

/-- `san_char` never produces an invalid character it would rewrite again. -/
theorem san_char_idem (x : Char) : san_char (san_char x) = san_char x := by
  by_cases h1 : x = '<'; · subst h1; decide
  by_cases h2 : x = '>'; · subst h2; decide
  by_cases h3 : x = ':'; · subst h3; decide
  by_cases h4 : x = '"'; · subst h4; decide
  by_cases h5 : x = '/'; · subst h5; decide
  by_cases h6 : x = '\\'; · subst h6; decide
  by_cases h7 : x = '|'; · subst h7; decide
  by_cases h8 : x = '?'; · subst h8; decide
  by_cases h9 : x = '*'; · subst h9; decide
  have hx : san_char x = x := by
    simp [san_char, invalid_chars, replace_char, h1, h2, h3, h4, h5, h6, h7, h8, h9]
  rw [hx, hx]

theorem map_san_san (s : Str) : (s.map san_char).map san_char = s.map san_char := by
  induction s with
  | nil => rfl
  | cons x t ih => simp only [List.map_cons, ih, san_char_idem]

/-- C10. `sanitize_filename` is idempotent: a second pass replaces nothing
(the output contains no invalid character) and truncates nothing (the output
has length at most 255). -/
theorem sanitize_filename_idempotent (s : Str) :
    sanitize_filename (sanitize_filename s) = sanitize_filename s := by
  unfold sanitize_filename
  rw [foldl_replace_eq_map, foldl_replace_eq_map, List.map_take, map_san_san]
  simp

/-! ### Lemmas for get_item_image -/

theorem find_match_eq_find? (imgs : List Image) :
    find_match imgs = (imgs.find? (fun im => title_matches im.title)).map Image.title := by
  induction imgs with
  | nil => rfl
  | cons im rest ih =>
    by_cases h : title_matches im.title
    · simp [find_match, h]
    · simp [find_match, h, ih]

theorem scan_pages_eq_select (pages : List Page) :
    scan_pages pages = resolver_select pages := by
  induction pages with
  | nil => rfl
  | cons p rest ih =>
    cases hp : p.images with
    | none => simp [scan_pages, hp, resolver_select, List.filterMap_cons, ih]
    | some imgs =>
      cases hfind : imgs.find? (fun im => title_matches im.title) with
      | some im =>
        simp [scan_pages, hp, find_match_eq_find?, hfind, resolver_select,
          List.filterMap_cons, List.find?_append]
      | none =>
        simp [scan_pages, hp, find_match_eq_find?, hfind, resolver_select,
          List.filterMap_cons, List.find?_append, ih]

/-- C1 (amended). The resolver's first step selects the first image, in
page-then-image order over the pages that carry an `images` key, whose
lowercased title CONTAINS the substring "png" or "gif"; if no image matches
(or the request fails) it returns null. -/
theorem get_item_image_first_substring_match (pages : List Page) (e : Unit) :
    get_item_image (.ok pages) = resolver_select pages ∧
    get_item_image (.error e) = none ∧
    (get_item_image (.ok pages) = none ↔
      ∀ im ∈ (pages.filterMap Page.images).flatten, ¬ title_matches im.title) := by
  refine ⟨scan_pages_eq_select pages, rfl, ?_⟩
  rw [show get_item_image (.ok pages) = scan_pages pages from rfl,
    scan_pages_eq_select pages]
  unfold resolver_select
  rw [Option.map_eq_none', List.find?_eq_none]

/-- C1 (counterexample). A `.jpg` image whose name merely contains "png" IS
selected by the code (substring test), although its filename extension is
neither `.png` nor `.gif`; the claim says it must not be selected and the
resolver must return null. -/
theorem get_item_image_substring_counterexample :
    get_item_image (.ok [⟨some [⟨"Oak_png_icon.jpg".toList⟩]⟩]) =
      some "Oak_png_icon.jpg".toList ∧
    has_png_gif_ext "Oak_png_icon.jpg".toList = false := by
  constructor
  · decide
  · decide

/-! ### The resolver's second step: get_image_url (source lines 102-124)

The code iterates the `pages` dict; for the first page having an `imageinfo`
key it returns `page['imageinfo'][0]['url']`.  If that list is empty the `[0]`
subscript raises `IndexError`, which the bare `except` catches, so the whole
lookup yields `None` (it does not move on to further pages). -/

structure ImageInfo where
  url : Str
deriving DecidableEq, Repr

structure IPage where
  imageinfo : Option (List ImageInfo)
deriving DecidableEq, Repr

def scan_ipages : List IPage → Option Str
  | [] => none
  | p :: rest =>
    match p.imageinfo with
    | some [] => none
    | some (i :: _) => some i.url
    | none => scan_ipages rest

def get_image_url (resp : Except Unit (List IPage)) : Option Str :=
  match resp with
  | .error _ => none
  | .ok pages => scan_ipages pages

/-! ### download_image (source lines 126-139)

`requests.get(url, timeout=10)` either raises (timeout, transport error:
modelled by `.error ()`) or yields a response with a status code and a body.
`response.raise_for_status()` raises exactly for 4xx and 5xx status codes
(`400 ≤ status < 600`); it does NOT raise for any other status.  The file write
(`open` + `write`) is modelled atomically: `writeOk = false` means it raised
an `OSError`, leaving no file; `writeOk = true` means the full body was
written.  The bare `except` turns every raised error into `return False`. -/

structure HttpResp where
  status : Nat
  body : Str
deriving DecidableEq, Repr

/-- Returns the success flag and the content written to `filename` (if any). -/
def download_image (resp : Except Unit HttpResp) (writeOk : Bool) : Bool × Option Str :=
  match resp with
  | .error _ => (false, none)
  | .ok r =>
    if 400 ≤ r.status ∧ r.status < 600 then (false, none)
    else if writeOk then (true, some r.body) else (false, none)

/-! ### process_item (source lines 141-166) and its filename plumbing -/

def SAVE_DIR : Str := "scripts/minecraft_items".toList

/-- `os.path.join(SAVE_DIR, filename)` for a relative second component. -/
def path_join (a b : Str) : Str := a ++ '/' :: b

/-- `os.path.basename`: the part after the last slash. -/
def basename (s : Str) : Str :=
  s.foldl (fun acc c => if c = '/' then [] else acc ++ [c]) []

def hex_val (c : Char) : Option Nat :=
  if 48 ≤ c.toNat ∧ c.toNat ≤ 57 then some (c.toNat - 48)
  else if 97 ≤ c.toNat ∧ c.toNat ≤ 102 then some (c.toNat - 97 + 10)
  else if 65 ≤ c.toNat ∧ c.toNat ≤ 70 then some (c.toNat - 65 + 10)
  else none

/-- `urllib.parse.unquote`, modelled for single-byte percent-escapes (the
multi-byte UTF-8 decoding of consecutive escapes is not needed for any claim):
each valid `%XX` is decoded, anything else is kept verbatim. -/
def unquote : Str → Str
  | [] => []
  | c :: rest =>
    if c = '%' then
      match rest with
      | h1 :: h2 :: rest2 =>
        match hex_val h1, hex_val h2 with
        | some a, some b => Char.ofNat (16 * a + b) :: unquote rest2
        | _, _ => c :: unquote (h1 :: h2 :: rest2)
      | [h1] => c :: unquote [h1]
      | [] => [c]
    else c :: unquote rest
termination_by s => s.length
decreasing_by all_goals (simp; try omega)

/-- The per-item record built by `process_item` (the ResolvedAsset). -/
structure ItemInfo where
  name : Str
  imageUrl : Option Str
  localPath : Option Str
deriving DecidableEq, Repr

/-- `process_item` from the source.  Returns the success flag, the item record
and the file write performed (path and content), if any.  Note the source sets
`item_info['localPath'] = filepath` BEFORE attempting the download, and on a
failed download falls through to `return False, item_info` with `localPath`
still set. -/
def process_item (title : Str) (imgResp : Except Unit (List Page))
    (urlResp : Except Unit (List IPage)) (download_files : Bool)
    (dlResp : Except Unit HttpResp) (writeOk : Bool) :
    Bool × ItemInfo × Option (Str × Str) :=
  match get_item_image imgResp with
  | none => (false, ⟨title, none, none⟩, none)
  | some _ =>
    match get_image_url urlResp with
    | none => (false, ⟨title, none, none⟩, none)
    | some image_url =>
      if download_files then
        let filename := sanitize_filename (title ++ '_' :: basename (unquote image_url))
        let filepath := path_join SAVE_DIR filename
        let dl := download_image dlResp writeOk
        (dl.1, ⟨title, some image_url, some filepath⟩, dl.2.map (fun c => (filepath, c)))
      else
        (true, ⟨title, some image_url, none⟩, none)

/-- C6 (amended). The Asset Fetcher returns false and writes no file when the
request raises (timeout, transport error), when the status is 4xx/5xx
(400–599), or when the file write raises; for any status outside 400–599 it
writes the full response body and returns true.  (`raise_for_status` raises
exactly for 400 ≤ status < 600, so e.g. a 304 is treated as success.) -/
theorem download_image_spec (r : HttpResp) (w : Bool) (e : Unit) :
    download_image (.error e) w = (false, none) ∧
    (400 ≤ r.status → r.status < 600 → download_image (.ok r) w = (false, none)) ∧
    (r.status < 400 ∨ 600 ≤ r.status →
      download_image (.ok r) false = (false, none)) ∧
    (r.status < 400 ∨ 600 ≤ r.status →
      download_image (.ok r) true = (true, some r.body)) := by
  refine ⟨rfl, ?_, ?_, ?_⟩
  · intro h1 h2; simp [download_image, h1, h2]
  · intro h
    simp [download_image,
      show ¬ (400 ≤ r.status ∧ r.status < 600) from by rcases h with h | h <;> omega]
  · intro h
    simp [download_image,
      show ¬ (400 ≤ r.status ∧ r.status < 600) from by rcases h with h | h <;> omega]

/-- C6 witness: concrete 404 failure and concrete 200 success. -/
theorem download_image_spec_witness :
    download_image (.ok ⟨404, "x".toList⟩) true = (false, none) ∧
    download_image (.ok ⟨200, "x".toList⟩) true = (true, some "x".toList) :=
  ⟨(download_image_spec ⟨404, "x".toList⟩ true ()).2.1 (by decide) (by decide),
   (download_image_spec ⟨200, "x".toList⟩ true ()).2.2.2 (Or.inl (by decide))⟩

/-- C6 (counterexample). On a 304 response (a non-2xx status) the code does
NOT fail: `raise_for_status` does not raise below 400, so the body is written
and True is returned — contradicting "non-2xx status → returns false and
writes no file". -/
theorem download_image_304_counterexample :
    download_image (.ok ⟨304, "abc".toList⟩) true = (true, some "abc".toList) := by
  decide

/-! ### save_items_json (source lines 168-180)

The code filters `items_info` to the entries with `item['imageUrl'] is not
None` and passes the result to `json.dump(successful_items, f, indent=2,
ensure_ascii=False)` on a file opened with mode `'w'` (truncating any previous
content).  The `json.dump` call is modelled by recording the value serialized
and the serialization options used; a raised write error is caught and logged,
leaving the previous file content. -/

structure Dumped where
  value : List ItemInfo
  indent : Option Nat
  ensureAscii : Bool
deriving DecidableEq, Repr

/-- `save_items_json`: returns the catalog file's content after the call. -/
def save_items_json (items_info : List ItemInfo) (writeOk : Bool)
    (prevFile : Option Dumped) : Option Dumped :=
  let successful_items := items_info.filter (fun i => i.imageUrl.isSome)
  if writeOk then some ⟨successful_items, some 2, false⟩ else prevFile

/-- C2 (amended). `localPath` is non-null exactly when download was enabled
AND `imageUrl` was resolved — the path is set BEFORE the download is
attempted, so it is non-null even when the Asset Fetcher fails. -/
theorem process_item_localPath_iff (t : Str) (ir : Except Unit (List Page))
    (ur : Except Unit (List IPage)) (dl : Bool) (dr : Except Unit HttpResp)
    (w : Bool) :
    ((process_item t ir ur dl dr w).2.1.localPath).isSome =
      (dl && ((process_item t ir ur dl dr w).2.1.imageUrl).isSome) := by
  unfold process_item
  cases get_item_image ir with
  | none => simp
  | some it =>
    cases get_image_url ur with
    | none => simp
    | some url =>
      cases dl with
      | false => simp
      | true => simp

/-- C2 (counterexample). Download enabled, URL resolved, fetch fails with a
404: the returned ResolvedAsset is unsuccessful but its `localPath` is
non-null, contradicting "when download is enabled and the Asset Fetcher fails,
the returned ResolvedAsset has `localPath` null". -/
theorem process_item_failed_download_localPath_counterexample :
    (process_item "Stone".toList (.ok [⟨some [⟨"Stone.png".toList⟩]⟩])
        (.ok [⟨some [⟨"https://x/Stone.png".toList⟩]⟩]) true
        (.ok ⟨404, []⟩) true).1 = false ∧
    ((process_item "Stone".toList (.ok [⟨some [⟨"Stone.png".toList⟩]⟩])
        (.ok [⟨some [⟨"https://x/Stone.png".toList⟩]⟩]) true
        (.ok ⟨404, []⟩) true).2.1.localPath).isSome = true := by
  constructor
  · decide
  · decide

/-- C9. With download mode disabled and a resolved URL, the item is a success,
`imageUrl` is set, `localPath` is null, and no file is written. -/
theorem process_item_no_download_mode (t : Str) (ir : Except Unit (List Page))
    (ur : Except Unit (List IPage)) (dr : Except Unit HttpResp) (w : Bool)
    (h1 : (get_item_image ir).isSome) (h2 : (get_image_url ur).isSome) :
    ∃ url, get_image_url ur = some url ∧
      process_item t ir ur false dr w = (true, ⟨t, some url, none⟩, none) := by
  cases hir : get_item_image ir with
  | none => rw [hir] at h1; simp at h1
  | some it =>
    cases hur : get_image_url ur with
    | none => rw [hur] at h2; simp at h2
    | some url => exact ⟨url, rfl, by simp [process_item, hir, hur]⟩

/-- C9 witness: a concrete item resolved with download mode off. -/
theorem process_item_no_download_mode_witness :
    process_item "A".toList (.ok [⟨some [⟨"A.png".toList⟩]⟩])
        (.ok [⟨some [⟨"u".toList⟩]⟩]) false (.error ()) false =
      (true, ⟨"A".toList, some "u".toList, none⟩, none) := by
  obtain ⟨url, hu, hp⟩ :=
    process_item_no_download_mode "A".toList (.ok [⟨some [⟨"A.png".toList⟩]⟩])
      (.ok [⟨some [⟨"u".toList⟩]⟩]) (.error ()) false (by decide) (by decide)
  rw [show get_image_url (.ok [(⟨some [⟨"u".toList⟩]⟩ : IPage)]) =
      some "u".toList from rfl] at hu
  injection hu with hu
  subst hu
  exact hp

/-- C8. The written catalog is exactly the input filtered to entries with a
non-null `imageUrl` (membership characterized), serialized with `indent=2` and
`ensure_ascii=False` (pretty-printed, non-ASCII kept unescaped), overwriting
whatever file was there before; and if the write fails the previous file is
left as it was and the writer returns normally. -/
theorem save_items_json_spec (items : List ItemInfo) (prev : Option Dumped) :
    (∃ d, save_items_json items true prev = some d ∧
      d.indent = some 2 ∧ d.ensureAscii = false ∧
      d.value = items.filter (fun i => i.imageUrl.isSome) ∧
      (∀ i, i ∈ d.value ↔ i ∈ items ∧ i.imageUrl.isSome)) ∧
    save_items_json items false prev = prev := by
  refine ⟨⟨⟨items.filter (fun i => i.imageUrl.isSome), some 2, false⟩,
    rfl, rfl, rfl, rfl, ?_⟩, rfl⟩
  intro i
  simp [List.mem_filter]

/-- C3 (amended). When download is enabled, the URL resolves and the fetch
fails, the item IS counted as unsuccessful (the flag is False), but its entry
— with the resolved `imageUrl` and the never-written `localPath` — is NOT
excluded from the catalog: `save_items_json` filters only on `imageUrl`, which
is non-null, so the entry is written. -/
theorem process_item_download_failure_kept (t : Str)
    (ir : Except Unit (List Page)) (ur : Except Unit (List IPage))
    (dr : Except Unit HttpResp) (w : Bool) (pre post : List ItemInfo)
    (prev : Option Dumped)
    (h1 : (get_item_image ir).isSome) (h2 : (get_image_url ur).isSome)
    (h3 : (download_image dr w).1 = false) :
    (process_item t ir ur true dr w).1 = false ∧
    ((process_item t ir ur true dr w).2.1.imageUrl).isSome ∧
    (∃ d, save_items_json (pre ++ (process_item t ir ur true dr w).2.1 :: post)
        true prev = some d ∧ (process_item t ir ur true dr w).2.1 ∈ d.value) := by
  cases hir : get_item_image ir with
  | none => rw [hir] at h1; simp at h1
  | some it =>
    cases hur : get_image_url ur with
    | none => rw [hur] at h2; simp at h2
    | some url =>
      have hp : (process_item t ir ur true dr w).2.1 =
          ⟨t, some url, some (path_join SAVE_DIR (sanitize_filename
            (t ++ '_' :: basename (unquote url))))⟩ := by
        simp [process_item, hir, hur]
      refine ⟨?_, ?_, ?_⟩
      · simp [process_item, hir, hur, h3]
      · rw [hp]; simp
      · refine ⟨_, rfl, ?_⟩
        rw [List.mem_filter]
        constructor
        · simp
        · rw [hp]; simp

/-- The content of the catalog file, as a list of entries ([] if no file). -/
def catalog_value (o : Option Dumped) : List ItemInfo :=
  (o.map Dumped.value).getD []

/-- C3 witness: a concrete failed download whose entry lands in the catalog. -/
theorem process_item_download_failure_kept_witness :
    (process_item "B".toList (.ok [⟨some [⟨"B.gif".toList⟩]⟩])
        (.ok [⟨some [⟨"v".toList⟩]⟩]) true (.error ()) true).1 = false ∧
    ((process_item "B".toList (.ok [⟨some [⟨"B.gif".toList⟩]⟩])
        (.ok [⟨some [⟨"v".toList⟩]⟩]) true (.error ()) true).2.1.imageUrl).isSome ∧
    (process_item "B".toList (.ok [⟨some [⟨"B.gif".toList⟩]⟩])
        (.ok [⟨some [⟨"v".toList⟩]⟩]) true (.error ()) true).2.1 ∈
      catalog_value (save_items_json ([] ++ (process_item "B".toList
        (.ok [⟨some [⟨"B.gif".toList⟩]⟩]) (.ok [⟨some [⟨"v".toList⟩]⟩]) true
        (.error ()) true).2.1 :: []) true none) := by
  obtain ⟨hf, hu, d, hd, hm⟩ :=
    process_item_download_failure_kept "B".toList (.ok [⟨some [⟨"B.gif".toList⟩]⟩])
      (.ok [⟨some [⟨"v".toList⟩]⟩]) (.error ()) true [] [] none
      (by decide) (by decide) (by decide)
  refine ⟨hf, hu, ?_⟩
  rw [hd]
  simpa [catalog_value] using hm

/-- C3 (counterexample). A concrete item whose download fails (flag False)
still appears in the written catalog, contradicting "its entry is excluded
from the written catalog". -/
theorem failed_download_in_catalog_counterexample :
    (process_item "C".toList (.ok [⟨some [⟨"C.png".toList⟩]⟩])
        (.ok [⟨some [⟨"w".toList⟩]⟩]) true (.ok ⟨500, []⟩) true).1 = false ∧
    (process_item "C".toList (.ok [⟨some [⟨"C.png".toList⟩]⟩])
        (.ok [⟨some [⟨"w".toList⟩]⟩]) true (.ok ⟨500, []⟩) true).2.1 ∈
      catalog_value (save_items_json [(process_item "C".toList
        (.ok [⟨some [⟨"C.png".toList⟩]⟩]) (.ok [⟨some [⟨"w".toList⟩]⟩]) true
        (.ok ⟨500, []⟩) true).2.1] true none) := by
  constructor
  · decide
  · simp only [save_items_json, catalog_value, if_pos, Option.map_some',
      Option.getD_some, List.mem_filter, List.mem_singleton]
    exact ⟨trivial, by decide⟩

/-! ### get_item_list (source lines 40-75)

The loop issues one request per iteration; `responses` is the stream of
outcomes those successive requests would have.  A response without both
`continue` and `continue.cmcontinue` keys ends the loop after its members are
appended; a raised request/parse error ends the loop keeping the accumulator.
A response whose `query.categorymembers` is missing contributes no members,
modelled by an empty `members` list. -/

structure Member where
  title : Str
  pageid : Nat
deriving DecidableEq, Repr

structure ListResp where
  members : List Member
  cmcontinue : Option Str
deriving DecidableEq, Repr

def list_loop : List (Except Unit ListResp) → List Member → List Member
  | [], acc => acc
  | r :: rest, acc =>
    match r with
    | .error _ => acc
    | .ok resp =>
      match resp.cmcontinue with
      | some _ => list_loop rest (acc ++ resp.members)
      | none => acc ++ resp.members

def get_item_list (responses : List (Except Unit ListResp)) : List Member :=
  list_loop responses []

/-! ### main (source lines 182-227)

One task per item is submitted to the pool; `future.result()` re-raises any
exception the task raised, and that call in `main`'s collection loop is NOT
wrapped in a try/except, so such a fault propagates out of `main`.  A task's
unexpected fault (an exception not caught inside `process_item`) is modelled
by the `fault` field of its input.  `main_run` returns the collection
outcome (success count, failure count, collected records — or the
propagated fault) together with the catalog file content afterwards. -/

structure ItemInput where
  title : Str
  imgResp : Except Unit (List Page)
  urlResp : Except Unit (List IPage)
  dlResp : Except Unit HttpResp
  writeOk : Bool
  fault : Option Unit

/-- What `future.result()` yields for one submitted task. -/
def task_result (inp : ItemInput) (download_files : Bool) :
    Except Unit (Bool × ItemInfo) :=
  match inp.fault with
  | some u => .error u
  | none =>
    let r := process_item inp.title inp.imgResp inp.urlResp download_files
      inp.dlResp inp.writeOk
    .ok (r.1, r.2.1)

/-- The `for future in as_completed(...)` loop: counts successes and failures
and appends every collected record; an uncaught fault aborts the loop. -/
def collect_loop : List (Except Unit (Bool × ItemInfo)) → Nat → Nat →
    List ItemInfo → Except Unit (Nat × Nat × List ItemInfo)
  | [], s, f, infos => .ok (s, f, infos)
  | r :: rest, s, f, infos =>
    match r with
    | .error e => .error e
    | .ok (true, info) => collect_loop rest (s + 1) f (infos ++ [info])
    | .ok (false, info) => collect_loop rest s (f + 1) (infos ++ [info])

/-- `main`: dispatch all tasks, collect, then write the catalog.  If the
collection loop raises, `save_items_json` is never reached and the catalog
file stays as it was. -/
def main_run (inputs : List ItemInput) (download_files : Bool)
    (jsonWriteOk : Bool) (prev : Option Dumped) :
    Except Unit (Nat × Nat × List ItemInfo) × Option Dumped :=
  match collect_loop (inputs.map (fun i => task_result i download_files)) 0 0 [] with
  | .error e => (.error e, prev)
  | .ok out => (.ok out, save_items_json out.2.2 jsonWriteOk prev)

/-! ### Lemmas for the lister and the orchestrator -/

theorem list_loop_ok_tokens (pre : List ListResp)
    (tail : List (Except Unit ListResp)) (acc : List Member)
    (h : ∀ r ∈ pre, r.cmcontinue.isSome) :
    list_loop (pre.map .ok ++ tail) acc =
      list_loop tail (acc ++ (pre.map ListResp.members).flatten) := by
  induction pre generalizing acc with
  | nil => simp
  | cons p ps ih =>
    obtain ⟨tok, htok⟩ := Option.isSome_iff_exists.mp (h p (by simp))
    have hrec := ih (acc ++ p.members) (fun r hr => h r (by simp [hr]))
    simp only [List.map_cons, List.cons_append, list_loop, htok, List.append_eq]
    rw [hrec, List.flatten_cons, List.append_assoc]

theorem collect_loop_error (rs : List (Except Unit (Bool × ItemInfo)))
    (s f : Nat) (infos : List ItemInfo) (h : ∃ r ∈ rs, r = .error ()) :
    collect_loop rs s f infos = .error () := by
  induction rs generalizing s f infos with
  | nil => obtain ⟨r, hr, _⟩ := h; simp at hr
  | cons r rest ih =>
    cases r with
    | error e => cases e; rfl
    | ok x =>
      obtain ⟨r', hr', he⟩ := h
      have hm : r' ∈ rest := by
        cases List.mem_cons.mp hr' with
        | inl hx => rw [hx] at he; cases he
        | inr hx => exact hx
      obtain ⟨b, info⟩ := x
      cases b with
      | true => exact ih (s + 1) f (infos ++ [info]) ⟨r', hm, he⟩
      | false => exact ih s (f + 1) (infos ++ [info]) ⟨r', hm, he⟩

theorem collect_loop_ok_length (rs : List (Except Unit (Bool × ItemInfo)))
    (s f : Nat) (infos : List ItemInfo) (h : ∀ r ∈ rs, r.isOk) :
    ∃ out, collect_loop rs s f infos = .ok out ∧
      out.2.2.length = infos.length + rs.length := by
  induction rs generalizing s f infos with
  | nil => exact ⟨(s, f, infos), rfl, by simp⟩
  | cons r rest ih =>
    cases r with
    | error e =>
      have := h (.error e) (by simp)
      simp [Except.isOk, Except.toBool] at this
    | ok x =>
      obtain ⟨b, info⟩ := x
      have h' : ∀ r ∈ rest, r.isOk := fun r hr => h r (by simp [hr])
      cases b with
      | true =>
        obtain ⟨out, hout, hlen⟩ := ih (s + 1) f (infos ++ [info]) h'
        exact ⟨out, hout, by simp at hlen; simp [hlen]; omega⟩
      | false =>
        obtain ⟨out, hout, hlen⟩ := ih s (f + 1) (infos ++ [info]) h'
        exact ⟨out, hout, by simp at hlen; simp [hlen]; omega⟩

/-- C5. The Lister accumulates every page's members while each response
carries a continuation token, stops after the first token-free response with
all members accumulated, and on a mid-pagination error returns exactly the
members of the pages completed before the failure, without raising. -/
theorem get_item_list_pagination (pre : List ListResp) (final : ListResp)
    (e : Unit) (rest : List (Except Unit ListResp))
    (h : ∀ r ∈ pre, r.cmcontinue.isSome) (hfinal : final.cmcontinue = none) :
    get_item_list (pre.map .ok ++ [.ok final]) =
      (pre.map ListResp.members).flatten ++ final.members ∧
    get_item_list (pre.map .ok ++ .error e :: rest) =
      (pre.map ListResp.members).flatten := by
  constructor
  · rw [get_item_list, list_loop_ok_tokens pre _ [] h]
    simp [list_loop, hfinal]
  · rw [get_item_list, list_loop_ok_tokens pre _ [] h]
    simp [list_loop]

/-- C5 witness: a two-page listing, complete and interrupted. -/
theorem get_item_list_pagination_witness :
    get_item_list [.ok ⟨[⟨"Stone".toList, 1⟩], some "c".toList⟩,
        .ok ⟨[⟨"Dirt".toList, 2⟩], none⟩] =
      [⟨"Stone".toList, 1⟩, ⟨"Dirt".toList, 2⟩] ∧
    get_item_list [.ok ⟨[⟨"Stone".toList, 1⟩], some "c".toList⟩, .error ()] =
      [⟨"Stone".toList, 1⟩] := by
  have h := get_item_list_pagination [⟨[⟨"Stone".toList, 1⟩], some "c".toList⟩]
    ⟨[⟨"Dirt".toList, 2⟩], none⟩ () [] (by simp) rfl
  exact ⟨by simpa using h.1, by simpa using h.2⟩

/-- C4 (amended). If any dispatched task raises an unexpected fault, the
fault re-raises at `future.result()` in the collection loop — which is not
wrapped in a try/except — so the run aborts: no per-item failure is recorded
for it, the remaining results are dropped and the catalog is never written. -/
theorem main_run_fault_aborts (inputs : List ItemInput) (dl jw : Bool)
    (prev : Option Dumped) (h : ∃ inp ∈ inputs, inp.fault.isSome) :
    (main_run inputs dl jw prev).1 = .error () ∧
    (main_run inputs dl jw prev).2 = prev := by
  have herr : ∃ r ∈ inputs.map (fun i => task_result i dl), r = .error () := by
    obtain ⟨inp, hin, hf⟩ := h
    obtain ⟨u, hu⟩ := Option.isSome_iff_exists.mp hf
    exact ⟨task_result inp dl, List.mem_map_of_mem _ hin,
      by cases u; simp [task_result, hu]⟩
  have hc := collect_loop_error (inputs.map (fun i => task_result i dl)) 0 0 [] herr
  unfold main_run
  rw [hc]
  exact ⟨rfl, rfl⟩

/-- C4 witness: a single faulting task aborts a concrete run. -/
theorem main_run_fault_aborts_witness :
    (main_run [⟨"W".toList, .error (), .error (), .error (), true, some ()⟩]
        true true none).1 = .error () ∧
    (main_run [⟨"W".toList, .error (), .error (), .error (), true, some ()⟩]
        true true none).2 = none :=
  main_run_fault_aborts
    [⟨"W".toList, .error (), .error (), .error (), true, some ()⟩] true true none
    ⟨⟨"W".toList, .error (), .error (), .error (), true, some ()⟩, by simp, rfl⟩

/-- C4 (counterexample). One faulting task: the orchestrator neither records
it as a failure nor finishes the run — the whole run aborts with the fault
and the catalog is never written, contradicting "the orchestrator records
that item as a failure ... the fault never aborts the overall run". -/
theorem faulting_task_aborts_counterexample :
    main_run [⟨"A".toList, .error (), .error (), .error (), false, some ()⟩]
        false true none = (.error (), none) := rfl

/-- C7. With every task returning normally (resolve and fetch steps may fail
internally: those failures are caught inside `process_item`), the collected
result list has exactly one record per input item. -/
theorem main_run_result_count (inputs : List ItemInput) (dl jw : Bool)
    (prev : Option Dumped) (h : ∀ inp ∈ inputs, inp.fault = none) :
    ∃ s f infos, (main_run inputs dl jw prev).1 = .ok (s, f, infos) ∧
      infos.length = inputs.length := by
  have hok : ∀ r ∈ inputs.map (fun i => task_result i dl), r.isOk := by
    intro r hr
    obtain ⟨inp, hin, hmk⟩ := List.mem_map.mp hr
    rw [← hmk]
    simp [task_result, h inp hin, Except.isOk, Except.toBool]
  obtain ⟨out, hout, hlen⟩ :=
    collect_loop_ok_length (inputs.map (fun i => task_result i dl)) 0 0 [] hok
  refine ⟨out.1, out.2.1, out.2.2, ?_, ?_⟩
  · unfold main_run
    rw [hout]
  · rw [hlen]
    simp

/-- C7 witness: two items, one of which fails every remote step, still yield
two collected records. -/
theorem main_run_result_count_witness :
    ((main_run [⟨"A".toList, .ok [⟨some [⟨"A.png".toList⟩]⟩],
          .ok [⟨some [⟨"u".toList⟩]⟩], .error (), true, none⟩,
        ⟨"B".toList, .error (), .error (), .error (), true, none⟩]
        false true none).1.toOption.map (fun o => o.2.2.length)) = some 2 := by
  obtain ⟨s, f, infos, h1, h2⟩ :=
    main_run_result_count [⟨"A".toList, .ok [⟨some [⟨"A.png".toList⟩]⟩],
        .ok [⟨some [⟨"u".toList⟩]⟩], .error (), true, none⟩,
      ⟨"B".toList, .error (), .error (), .error (), true, none⟩]
      false true none (by simp)
  have hl : infos.length = 2 := by simpa using h2
  rw [h1]
  simp [Except.toOption, hl]

end DMI
